import Mathlib

/-!
Verification development for `diff_analyzer.py`, a difficulty-file analysis
script.  The script parses a JSON-like "difficulty" document, classifies enemy
descriptors into spawn pools, resolves per-enemy attributes against two
baseline registries, and emits a report table.

The Python source is shallowly embedded below:
  * JSON-like dynamic values become the inductive type `JVal`;
  * Python dicts become association lists (`Dict`), assumed key-unique as
    Python's `json.load` guarantees;
  * Python sets of descriptors become duplicate-free `List String` values
    built only through the set operations `sinsert`/`sunion`/`ssub`/`sinter`
    (Python set iteration order is unspecified; the insertion order used here
    is one admissible order, and all theorems below are order-insensitive);
  * operations that can raise (`d[k]`, `.get` on a non-dict, iteration of a
    non-iterable, `float(...)`, `l[0]`) return `Except PyErr`;
  * CPython floats are modelled as exact terminating decimals
    `float m e ≈ m / 10^e` (normalized: trailing zeros of `m` cancelled
    against `e`), which evaluates decimal literals exactly — faithful for
    every value the claims exercise.
-/

/-- A JSON-like dynamic (Python) value.  `float m e` is the decimal
`m / 10^e`. -/
inductive JVal where
  | str : String → JVal
  | int : Int → JVal
  | float : Int → Nat → JVal
  | bool : Bool → JVal
  | null : JVal
  | arr : List JVal → JVal
  | obj : List (String × JVal) → JVal

/-- A parsed JSON object (Python dict with string keys). -/
abbrev Dict := List (String × JVal)

/-- Python exception kinds raised by the embedded code. -/
inductive PyErr where
  | keyError
  | typeError
  | attributeError
  | valueError
  | indexError
deriving DecidableEq

/-- `d.get(k)` on a Python dict: the first binding of `k` (keys are unique). -/
def dictGet (d : Dict) (k : String) : Option JVal :=
  match d with
  | [] => none
  | (k', v) :: rest => if k' == k then some v else dictGet rest k

/-- `d.get(k, dflt)` on a Python dict. -/
def getDJ (d : Dict) (k : String) (dflt : JVal) : JVal :=
  match dictGet d k with
  | some v => v
  | none => dflt

/-- `k in d` for a Python dict `d`. -/
def hasKey (d : Dict) (k : String) : Bool :=
  (dictGet d k).isSome

/-- Python truthiness (`bool(v)`). -/
def truthy : JVal → Bool
  | .str s => !s.isEmpty
  | .int n => n != 0
  | .float m _ => m != 0
  | .bool b => b
  | .null => false
  | .arr l => !l.isEmpty
  | .obj kvs => !kvs.isEmpty

/-- `isinstance(v, dict)`. -/
def JVal.isObj : JVal → Bool
  | .obj _ => true
  | _ => false

/-- `isinstance(v, str)`. -/
def JVal.isStr : JVal → Bool
  | .str _ => true
  | _ => false

/-- The walrus pattern `if p := x:` — yields the value only when truthy. -/
def truthyMatch : Option JVal → Option JVal
  | some v => if truthy v then some v else none
  | none => none

/-- Viewing a value as a dict, as Python's attribute access requires
(`.get`/`.keys` on a non-dict raise `AttributeError`). -/
def asDictE : JVal → Except PyErr Dict
  | .obj kvs => .ok kvs
  | _ => .error .attributeError

/-! ### Python sets of strings

Modelled as duplicate-free lists; `sinsert` adds at the back when absent. -/

/-- `s.add(x)` on a set of strings. -/
def sinsert (x : String) (s : List String) : List String :=
  if s.contains x then s else s ++ [x]

/-- Set union `a | b` (members of `b` inserted into `a`). -/
def sunion (a b : List String) : List String :=
  b.foldl (fun acc x => sinsert x acc) a

/-- Set difference `a - b`. -/
def ssub (a b : List String) : List String :=
  a.filter (fun x => !b.contains x)

/-- Set intersection `a & b`. -/
def sinter (a b : List String) : List String :=
  a.filter (fun x => b.contains x)

/-- The key set of a dict, as a set (`d.keys()`; keys are unique in Python, so
deduplication is a no-op there). -/
def skeys (d : Dict) : List String :=
  sunion [] (d.map (·.1))

/-! ### Python string primitives

Implemented on character lists so that every concrete evaluation reduces in
the kernel.  Semantics follow CPython (`str.strip`, `str.startswith`,
`str.endswith`, `str.split()`, substring `in`). -/

/-- The characters CPython's `str.strip()` and `str.split()` treat as
whitespace. -/
def pyIsSpace (c : Char) : Bool :=
  c == ' ' || c == '\t' || c == '\n' || c == '\r' || c == '\x0b' || c == '\x0c'

/-- `s.strip()`. -/
def pyStrip (s : String) : String :=
  String.mk (((s.toList.dropWhile pyIsSpace).reverse.dropWhile pyIsSpace).reverse)

/-- Leading-match test on character lists. -/
def leadMatch : List Char → List Char → Bool
  | [], _ => true
  | _ :: _, [] => false
  | c :: cs, d :: ds => c == d && leadMatch cs ds

/-- `s.startswith(p)`. -/
def pyStarts (s p : String) : Bool :=
  leadMatch p.toList s.toList

/-- `s.endswith(p)`. -/
def pyEnds (s p : String) : Bool :=
  leadMatch p.toList.reverse s.toList.reverse

/-- Substring containment on character lists (`a in b` for Python strings). -/
def subMatch (a : List Char) : List Char → Bool
  | [] => a.isEmpty
  | d :: ds => leadMatch a (d :: ds) || subMatch a ds

/-- `a in b` for Python strings. -/
def pyInStr (a b : String) : Bool :=
  subMatch a.toList b.toList

/-- `s.split()` helper: accumulates the current word (reversed). -/
def wsSplitAux : List Char → List Char → List String
  | [], [] => []
  | [], acc => [String.mk acc.reverse]
  | c :: r, acc =>
    if pyIsSpace c then
      match acc with
      | [] => wsSplitAux r []
      | _ :: _ => String.mk acc.reverse :: wsSplitAux r []
    else wsSplitAux r (c :: acc)

/-- `s.split()` — split on whitespace runs, dropping empty pieces. -/
def pySplitWS (s : String) : List String :=
  wsSplitAux s.toList []

/-- `file.readlines()` helper: splits at `'\n'`, keeping the terminator on
each line. -/
def readlinesAux : List Char → List Char → List String
  | [], [] => []
  | [], acc => [String.mk acc.reverse]
  | c :: rest, acc =>
    if c = '\n' then String.mk (c :: acc).reverse :: readlinesAux rest []
    else readlinesAux rest (c :: acc)

/-- `file.readlines()` on the full text. -/
def pyReadlines (s : String) : List String :=
  readlinesAux s.toList []

/-! ### Lenient Document Reader (`remove_multilines`) -/

/-- The multi-line trigger test of `remove_multilines` (normal mode): the
stripped line starts with `"Description` and does not already end with `",`. -/
def mlTrigger (line : String) : Bool :=
  pyStarts (pyStrip line) "\"Description" && !pyEnds (pyStrip line) "\","

/-- One step of `remove_multilines`' line loop; the state is the accumulated
output and the `multiline` flag. -/
def rmStep : String × Bool → String → String × Bool
  | (s, false), line =>
    if mlTrigger line then (s ++ pyStrip line ++ "\",", true)
    else (s ++ line, false)
  | (s, true), line =>
    if pyStarts (pyStrip line) "\"" && pyStrip line != "\"," then (s ++ line, false)
    else (s, true)

/-- `remove_multilines(diff)`: repairs broken multi-line `"Description` string
fields before JSON parsing. -/
def remove_multilines (diff : String) : String :=
  ((pyReadlines diff).foldl rmStep ("", false)).1

/-! ### Stringification and float parsing -/

/-- Lowercasing as Python's `str.lower()` (ASCII; the documents' keys are
ASCII). -/
def pyLower (s : String) : String :=
  String.mk (s.toList.map Char.toLower)

/-- Cancels trailing decimal zeros of the mantissa against the exponent, so
every modelled float has one representation (`3.50` and `3.5` coincide). -/
def decNorm : Int → Nat → Int × Nat
  | m, 0 => (m, 0)
  | m, e + 1 =>
    if m = 0 then (0, 0)
    else if m % 10 = 0 then decNorm (m / 10) e
    else (m, e + 1)

/-- The normalized float value `m / 10^e`. -/
def mkFloat (m : Int) (e : Nat) : JVal :=
  let p := decNorm m e
  .float p.1 p.2

/-- `str(x)` for a modelled float: terminating decimals render exactly
(`str(3.5) = "3.5"`, `str(3.0) = "3.0"`). -/
def floatRepr (m : Int) (e : Nat) : String :=
  let sign := if m < 0 then "-" else ""
  let s := toString m.natAbs
  let l := if s.length ≤ e then List.replicate (e + 1 - s.length) '0' ++ s.toList else s.toList
  if e = 0 then sign ++ s ++ ".0"
  else sign ++ String.mk (l.take (l.length - e)) ++ "." ++ String.mk (l.drop (l.length - e))

/-- Comma-separated join (Python's `", ".join`). -/
def joinComma : List String → String
  | [] => ""
  | [x] => x
  | x :: y :: r => x ++ ", " ++ joinComma (y :: r)

/-- `str(v)` / f-string interpolation of a Python value, fuelled for
structural recursion through containers (callers pass ample fuel).  The `rep`
flag selects `repr` (used for container elements); `repr`'s escaping of
quotes inside strings is not modelled (no claim exercises it). -/
def pyStrAux : Nat → JVal → Bool → String
  | 0, _, _ => ""
  | _ + 1, .str s, true => "\x27" ++ s ++ "\x27"
  | _ + 1, .str s, false => s
  | _ + 1, .int n, _ => toString n
  | _ + 1, .float m e, _ => floatRepr m e
  | _ + 1, .bool true, _ => "True"
  | _ + 1, .bool false, _ => "False"
  | _ + 1, .null, _ => "None"
  | f + 1, .arr l, _ =>
    "[" ++ joinComma (l.map (fun x => pyStrAux f x true)) ++ "]"
  | f + 1, .obj kvs, _ =>
    "\x7b" ++ joinComma
      (kvs.map (fun kv => "\x27" ++ kv.1 ++ "\x27: " ++ pyStrAux f kv.2 true)) ++ "\x7d"

/-- `str(v)` / f-string interpolation of a Python value.  The fuel mirrors
CPython's ~1000-frame recursion limit: `str()` on a structure nested deeper
than that raises `RecursionError`, and no JSON-parsed document approaches it. -/
def pyStr (v : JVal) : String := pyStrAux 1000 v false

/-- Numeric value of a run of decimal digits. -/
def digitsNat (l : List Char) : ℕ :=
  l.foldl (fun a c => a * 10 + (c.toNat - 48)) 0

/-- Splits a character list at the first `'.'`, if any. -/
def splitDot : List Char → (List Char × Option (List Char))
  | [] => ([], none)
  | c :: r =>
    if c = '.' then ([], some r)
    else
      let (ip, fp) := splitDot r
      (c :: ip, fp)

/-- `float(s)` on decimal literals: optional sign, digits, optional fractional
part (`5`, `5.`, `.5`, `3.5`, `-2.25`, …); anything else — including the
exponent / `inf` / `nan` forms no claim exercises — is a `ValueError`,
modelled as `none`. -/
def pyFloat (s : String) : Option JVal :=
  let l := (pyStrip s).toList
  let (sgn, l) : Int × List Char :=
    match l with
    | '-' :: rest => (-1, rest)
    | '+' :: rest => (1, rest)
    | _ => (1, l)
  let (ip, fpOpt) := splitDot l
  let fp := fpOpt.getD []
  if ip.all (·.isDigit) && fp.all (·.isDigit) && !(ip.isEmpty && fp.isEmpty) then
    some (mkFloat (sgn * ((digitsNat ip : Int) * (10 : Int) ^ fp.length + (digitsNat fp : Int))) fp.length)
  else none

/-! ### Dynamic (duck-typed) operations used by the pool classifier -/

/-- `d[k]` on the parsed document (a dict): `KeyError` when absent. -/
def pyDictKey (d : Dict) (k : String) : Except PyErr JVal :=
  match dictGet d k with
  | some v => .ok v
  | none => .error .keyError

/-- `v.get(k, dflt)` on an arbitrary value: `AttributeError` unless `v` is a
dict. -/
def pyGetD (v : JVal) (k : String) (dflt : JVal) : Except PyErr JVal :=
  match v with
  | .obj kvs => .ok (getDJ kvs k dflt)
  | _ => .error .attributeError

/-- `key in v` for a string `key` and arbitrary `v`: dict → key membership,
list → element equality (a string equals only the same string), string →
substring test, anything else → `TypeError`. -/
def pyInKey (key : String) (v : JVal) : Except PyErr Bool :=
  match v with
  | .obj kvs => .ok (hasKey kvs key)
  | .arr l => .ok (l.any (fun e => match e with | .str s => s == key | _ => false))
  | .str s => .ok (pyInStr key s)
  | _ => .error .typeError

/-- `v[key]` for a string `key`: dict → lookup (`KeyError` when absent);
list and string subscripts with a string index, and non-subscriptable values,
raise `TypeError`. -/
def pySubscript (v : JVal) (key : String) : Except PyErr JVal :=
  match v with
  | .obj kvs => pyDictKey kvs key
  | _ => .error .typeError

/-- `for x in v`: dict → its keys, list → its elements, string → its
characters as one-character strings, anything else → `TypeError`. -/
def pyElems : JVal → Except PyErr (List JVal)
  | .obj kvs => .ok (kvs.map (fun kv => .str kv.1))
  | .arr l => .ok l
  | .str s => .ok (s.toList.map (fun c => .str (String.mk [c])))
  | _ => .error .typeError

/-- Lowercases every element of a list of values (`AttributeError` on a
non-string element). -/
def lowerStrs : List JVal → Except PyErr (List String)
  | [] => pure []
  | .str s :: r => do
    let rest ← lowerStrs r
    pure (pyLower s :: rest)
  | _ :: _ => Except.error PyErr.attributeError

/-- `[k.lower() for k in v]`: iterate `v` and lowercase each element. -/
def pyLowerKeys (v : JVal) : Except PyErr (List String) := do
  let elems ← pyElems v
  lowerStrs elems

/-- The `for enemy in enemy_list: if isinstance(enemy, str): s.add(enemy)`
loop body: inserts the string elements of `l` into the set `s`. -/
def addStrings (l : List JVal) (s : List String) : List String :=
  l.foldl
    (fun acc e =>
      match e with
      | .str t => sinsert t acc
      | _ => acc) s

/-! ### Fixed baseline pool constants -/

/-- `VANILLA_COMMON_POOL`. -/
def VANILLA_COMMON_POOL : List String :=
  ["ED_Spider_Grunt",
   "ED_Spider_Tank",
   "ED_Spider_ShieldTank",
   "ED_Spider_RapidShooter",
   "ED_Spider_Buffer",
   "ED_Spider_ExploderTank",
   "ED_Spider_Stinger",
   "ED_Woodlouse",
   "ED_Grabber",
   "ED_Bomber",
   "ED_Spider_Swarmer",
   "ED_Spider_Exploder",
   "ED_Spider_Spitter",
   "ED_Spider_Shooter",
   "ED_Spider_Lobber",
   "ED_Mactera_Shooter_Normal",
   "ED_Mactera_TripleShooter",
   "ED_Spider_Stalker"]

/-- `VANILLA_STATIONARY_POOL`. -/
def VANILLA_STATIONARY_POOL : List String :=
  ["ED_ShootingPlant",
   "ED_CaveLeech",
   "ED_TentaclePlant",
   "ED_BarrageInfector",
   "ED_JellyBreeder",
   "ED_SpiderSpawner"]

/-! ### Pool Classifier (`build_enemy_pools` / `get_enemies_from_pool`) -/

/-- The body of `get_enemies_from_pool` once the mutation spec
`diff_pools[pool]` is in hand: the add (resp. remove) set is gathered only
when some key lowercases to `"add"` (resp. `"remove"`), and only through the
three probed spellings; non-string list entries are skipped. -/
def gefpSpec (spec : JVal) : Except PyErr (List String × List String) := do
  let lkeys ← pyLowerKeys spec
  let add ←
    if lkeys.contains "add" then do
      let l1 ← pyGetD spec "add" (.obj [])
      let l2 ← pyGetD spec "Add" (.obj [])
      let l3 ← pyGetD spec "ADD" (.obj [])
      let e1 ← pyElems l1
      let e2 ← pyElems l2
      let e3 ← pyElems l3
      pure (addStrings e3 (addStrings e2 (addStrings e1 [])))
    else pure []
  let remove ←
    if lkeys.contains "remove" then do
      let l1 ← pyGetD spec "Remove" (.obj [])
      let l2 ← pyGetD spec "REMOVE" (.obj [])
      let l3 ← pyGetD spec "remove" (.obj [])
      let e1 ← pyElems l1
      let e2 ← pyElems l2
      let e3 ← pyElems l3
      pure (addStrings e3 (addStrings e2 (addStrings e1 [])))
    else pure []
  return (add, remove)

/-- `get_enemies_from_pool(pool)`: extracts `(add, remove)` descriptor sets
from the mutation spec `diff_pools[pool]`, or `(∅, ∅)` when `pool` is not a
member of `diff_pools`. -/
def getEnemiesFromPool (diffPools : JVal) (pool : String) : Except PyErr (List String × List String) := do
  let pin ← pyInKey pool diffPools
  if pin then
    let spec ← pySubscript diffPools pool
    gefpSpec spec
  else
    return ([], [])

/-- Lines 150–155 of the source: the enemy-override section used for pool
membership — `diff["Enemies"]` if the key is present, else
`diff["EnemiesNoSync"]` if present, else `{}`.  Key presence, not truthiness,
is what the code tests. -/
def diffEnemiesVal (diff : Dict) : JVal :=
  if hasKey diff "Enemies" then getDJ diff "Enemies" (.obj [])
  else if hasKey diff "EnemiesNoSync" then getDJ diff "EnemiesNoSync" (.obj [])
  else .obj []

/-- `diff_enemies.keys()` used as a set (`AttributeError` on a non-dict). -/
def pyKeysSet (v : JVal) : Except PyErr (List String) := do
  let kvs ← asDictE v
  pure (skeys kvs)

/-- The general-pool accumulation of lines 172–175.  NOTE the Python operator
precedence: `common_pool | enemies_to_add - enemies_to_remove` parses as
`common_pool | (enemies_to_add - enemies_to_remove)`, so the removals are
subtracted only from that same pass's additions, never from the accumulated
pool. -/
def resolvedCommonPool (diffPools : JVal) : Except PyErr (List String) := do
  let a1 ← getEnemiesFromPool diffPools "EnemyPool"
  let a2 ← getEnemiesFromPool diffPools "DisruptiveEnemies"
  let a3 ← getEnemiesFromPool diffPools "SpecialEnemies"
  let a4 ← getEnemiesFromPool diffPools "CommonEnemies"
  pure (sunion (sunion (sunion (sunion VANILLA_COMMON_POOL
    (ssub a1.1 a1.2)) (ssub a2.1 a2.2)) (ssub a3.1 a3.2)) (ssub a4.1 a4.2))

/-- The stationary-pool accumulation of lines 177–179 (same precedence note as
`resolvedCommonPool`). -/
def resolvedStationaryPool (diffPools : JVal) : Except PyErr (List String) := do
  let a5 ← getEnemiesFromPool diffPools "StationaryPool"
  pure (sunion VANILLA_STATIONARY_POOL (ssub a5.1 a5.2))

/-- The three resolved pools returned by `build_enemy_pools`. -/
structure PoolsOut where
  enemyPool : List String
  stationaryPool : List String
  unknownPool : List String
deriving DecidableEq, Inhabited

/-- `build_enemy_pools(diff)`: resolves the three pools.  `diff["Pools"]` is a
bare subscript (`KeyError` when absent); the unknown pool is
`(keys - common) & (keys - stationary)` over the enemy-override key set. -/
def build_enemy_pools (diff : Dict) : Except PyErr PoolsOut := do
  let diffPools ← pyDictKey diff "Pools"
  let commonPool ← resolvedCommonPool diffPools
  let stationaryPool ← resolvedStationaryPool diffPools
  let ks ← pyKeysSet (diffEnemiesVal diff)
  return ⟨commonPool, stationaryPool, sinter (ssub ks commonPool) (ssub ks stationaryPool)⟩

/-! ### Attribute Resolver (`search_for_control` / `search_for_origin`) -/

/-- `diff_file.get(sec, {}).get(enemy, {}).get(control)`: the override-section
lookup chain (each inner `.get` needs a dict; a missing key yields `None`,
modelled as `none`). -/
def chainGet (d : Dict) (sec enemy control : String) : Except PyErr (Option JVal) := do
  let s ← asDictE (getDJ d sec (.obj []))
  let e ← asDictE (getDJ s enemy (.obj []))
  pure (dictGet e control)

/-- `record.get(enemy, {}).get(control)`: the baseline-registry lookup. -/
def baseGet (rec : Dict) (enemy control : String) : Except PyErr (Option JVal) := do
  let e ← asDictE (getDJ rec enemy (.obj []))
  pure (dictGet e control)

/-- `search_for_control(control, default)`: resolves an attribute through the
walrus chain `Enemies` → `EnemiesNoSync` → vanilla baseline (marked `" (*)"`)
→ mod baseline (marked) → default.  Each `if p := …:` tests truthiness, and a
dict value matched in the two override sections renders as `"Mutated"`. -/
def search_for_control (vrec mrec df : Dict) (enemy control : String) (dflt : JVal) : Except PyErr JVal := do
  let p1 ← chainGet df "Enemies" enemy control
  match truthyMatch p1 with
  | some p => pure (if p.isObj then .str "Mutated" else p)
  | none => do
    let p2 ← chainGet df "EnemiesNoSync" enemy control
    match truthyMatch p2 with
    | some p => pure (if p.isObj then .str "Mutated" else p)
    | none => do
      let p3 ← baseGet vrec enemy control
      match truthyMatch p3 with
      | some p => pure (.str (pyStr p ++ " (*)"))
      | none => do
        let p4 ← baseGet mrec enemy control
        match truthyMatch p4 with
        | some p => pure (.str (pyStr p ++ " (*)"))
        | none => pure dflt

/-- `base in record` for the origin lookup: a dict or list `base` is
unhashable (`TypeError`); a non-string hashable never equals a string key. -/
def pyInDict (base : JVal) (rec : Dict) : Except PyErr Bool :=
  match base with
  | .obj _ => .error .typeError
  | .arr _ => .error .typeError
  | .str s => .ok (hasKey rec s)
  | _ => .ok false

/-- The content-source classification of
`mod_record[base]["EnemyClass"]["AssetPathName"]` by substring match. -/
def originOfPath (pathVal : JVal) : Except PyErr String := do
  let e ← pyInKey "Elytras" pathVal
  if e then pure "EEE"
  else
    let d ← pyInKey "Donnie" pathVal
    if d then pure "DEA"
    else
      let y ← pyInKey "yinny" pathVal
      if y then pure "MEV"
      else pure "unknown"

/-- `search_for_origin(enemy)`: the `Base` override (or the enemy itself),
then `"{base} / Vanilla"`, `"{base} / {tag}"` via the mod entry's asset path,
or `"unknown"`. -/
def search_for_origin (vrec mrec df : Dict) (enemy : String) : Except PyErr String := do
  let b1 ← chainGet df "Enemies" enemy "Base"
  let base ←
    match truthyMatch b1 with
    | some b => pure b
    | none => do
      let b2 ← chainGet df "EnemiesNoSync" enemy "Base"
      match truthyMatch b2 with
      | some b => pure b
      | none => pure (JVal.str enemy)
  let inV ← pyInDict base vrec
  if inV then
    pure (pyStr base ++ " / Vanilla")
  else
    let inM ← pyInDict base mrec
    if inM then do
      let entry ←
        match base with
        | .str s => pyDictKey mrec s
        | _ => Except.error PyErr.typeError
      let ec ← asDictE (getDJ (← asDictE entry) "EnemyClass" (.obj []))
      let bo := dictGet ec "AssetPathName"
      let origin ←
        match truthyMatch bo with
        | some pathVal => originOfPath pathVal
        | none => pure "unknown"
      pure (pyStr base ++ " / " ++ origin)
    else
      pure "unknown"

/-! ### Report Assembler (`build_enemy_record`) and sorter -/

/-- One report row. -/
structure Row where
  enemy : String
  baseOrigin : String
  rarity : JVal
  difficultyRating : JVal
  spawnAmountModifier : JVal
  encounters : JVal
  constantPressure : JVal
  pool : String

/-- The row emitted for one `(pool, enemy)` pair (the loop body of
`build_enemy_record`): Rarity / DifficultyRating / SpawnAmountModifier default
to `"N/A"`; the two boolean-flavoured attributes default to `"False"`. -/
def rowFor (vrec mrec df : Dict) (poolName enemy : String) : Except PyErr Row := do
  let origin ← search_for_origin vrec mrec df enemy
  let rarity ← search_for_control vrec mrec df enemy "Rarity" (.str "N/A")
  let dr ← search_for_control vrec mrec df enemy "DifficultyRating" (.str "N/A")
  let sam ← search_for_control vrec mrec df enemy "SpawnAmountModifier" (.str "N/A")
  let enc ← search_for_control vrec mrec df enemy "CanBeUsedInEncounters" (.str "False")
  let cp ← search_for_control vrec mrec df enemy "CanBeUsedForConstantPressure" (.str "False")
  return ⟨enemy, origin, rarity, dr, sam, enc, cp, poolName⟩

/-- Effectful map over a list (the sequential `for enemy in enemies` loop). -/
def mapE (f : α → Except PyErr β) : List α → Except PyErr (List β)
  | [] => pure []
  | x :: xs => do
    let y ← f x
    let ys ← mapE f xs
    pure (y :: ys)

/-- `build_enemy_record(diff_file)`: one row per `(pool, enemy)` pair, in the
dict-literal order `enemy_pool`, `stationary_pool`, `unknown`. -/
def build_enemy_record (vrec mrec df : Dict) : Except PyErr (List Row) := do
  let pools ← build_enemy_pools df
  let r1 ← mapE (rowFor vrec mrec df "enemy_pool") pools.enemyPool
  let r2 ← mapE (rowFor vrec mrec df "stationary_pool") pools.stationaryPool
  let r3 ← mapE (rowFor vrec mrec df "unknown") pools.unknownPool
  return r1 ++ r2 ++ r3

/-- The `--filter-unknown` list comprehension of `sort_and_plot` (line 227):
`[rc for rc in enemy_record if rc["Pool"] != "unknown"]`. -/
def filterRecord (record : List Row) (filterUnknown : Bool) : List Row :=
  if filterUnknown then record.filter (fun r => r.pool != "unknown") else record

/-- `diff_file.get('Name', 'Unknown')` as displayed in the chart header. -/
def docName (df : Dict) : String :=
  match dictGet df "Name" with
  | some v => pyStr v
  | none => "Unknown"

/-- The per-field comparison kinds of `custom_sorter`. -/
def sorterFields : List (String × String) :=
  [("Enemy", "str"),
   ("Rarity", "numeric"),
   ("Pool", "str"),
   ("SpawnAmountModifier", "numeric"),
   ("DifficultyRating", "numeric"),
   ("Encounters", "bool"),
   ("ConstantPressure", "bool")]

/-- Key lookup in `sorterFields` (a plain string-to-string dict). -/
def fieldKind (sortBy : String) : Option String :=
  match sorterFields.find? (fun kv => kv.1 == sortBy) with
  | some kv => some kv.2
  | none => none

/-- `custom_sorter(s, sort_by)`: the sort-key normalization.  For the numeric
kinds a string cell is keyed by `float(s.split()[0])` when it ends with
`"(*)"` (note: no leading space in the probe) and by the int `-1` otherwise; a
list cell is keyed by its first element; anything else is passed through. -/
def custom_sorter (s : JVal) (sortBy : String) : Except PyErr JVal := do
  let kind ←
    match fieldKind sortBy with
    | some k => pure k
    | none => Except.error PyErr.keyError
  match kind with
  | "str" => pure s
  | "bool" => pure (.str (pyStr s))
  | _ =>
    match s with
    | .str t =>
      if pyEnds t "(*)" then
        match pySplitWS t with
        | [] => Except.error PyErr.indexError
        | tok :: _ =>
          match pyFloat tok with
          | some v => pure v
          | none => Except.error PyErr.valueError
      else pure (.int (-1))
    | .arr [] => Except.error PyErr.indexError
    | .arr (x :: _) => pure x
    | _ => pure s

/-! ### Concrete documents and registries used as test inputs below -/

/-- A difficulty document whose only mutation removes the fixed baseline
member `ED_Spider_Grunt` from the general pool. -/
def dfC1 : Dict :=
  [("Pools", .obj [("EnemyPool", .obj [("remove", .arr [.str "ED_Spider_Grunt"])])])]

/-- A document whose `Enemies` override sets `Rarity` to the falsy value `0`. -/
def dfC2 : Dict := [("Enemies", .obj [("ED_X", .obj [("Rarity", .int 0)])])]

/-- A vanilla registry giving `ED_X` the baseline `Rarity` 5. -/
def vanC2 : Dict := [("ED_X", .obj [("Rarity", .int 5)])]

/-- The same vanilla registry with the baseline `Rarity` changed to 7. -/
def vanC2' : Dict := [("ED_X", .obj [("Rarity", .int 7)])]

/-- A document with an empty `Pools` member and one overridden enemy that
belongs to no pool. -/
def dfW : Dict :=
  [("Pools", .obj []), ("Enemies", .obj [("ED_Foo", .obj [("Rarity", .int 3)])])]

/-- A one-entry vanilla registry for the report-pipeline tests. -/
def vanW : Dict := [("ED_Spider_Grunt", .obj [("Rarity", .int 10)])]

/-- The pools resolved from `dfW`. -/
def poolsW : PoolsOut := (build_enemy_pools dfW).toOption.getD default

/-- The record built from `dfW` over `vanW` and an empty mod registry. -/
def recW : List Row := (build_enemy_record vanW [] dfW).toOption.getD []

/-- A document carrying nested (dict-valued) attribute overrides in both
override sections. -/
def dfC4 : Dict :=
  [("Enemies", .obj [("ED_Y", .obj [("SpawnAmountModifier", .obj [("min", .int 1)])])]),
   ("EnemiesNoSync", .obj [("ED_Y", .obj [("Rarity", .obj [("mul", .int 2)])])])]

/-- A pool-mutation mapping whose add key is spelled `aDd`. -/
def poolsC5 : JVal := .obj [("EnemyPool", .obj [("aDd", .arr [.str "ED_New"])])]

/-- A raw difficulty text with a broken multi-line `"Description` field whose
terminating line does not end in `",`. -/
def xC6 : String := "\"Description here\n\"Health\": 5,\n"

/-- A raw difficulty text with no multi-line defect. -/
def xC6ok : String := "\"Name\": \"ok\",\n\"MaxActiveEnemies\": 12\n"

/-- A document with no `Pools` member (and no `Name`). -/
def dfC9 : Dict := [("Enemies", .obj [("ED_Z", .obj [])])]

/-! ## Helper lemmas -/

theorem except_bind_ok {α β : Type} {a : Except PyErr α} {f : α → Except PyErr β} {b : β}
    (h : a >>= f = .ok b) : ∃ x, a = .ok x ∧ f x = .ok b := by
  cases a with
  | error e => simp [Bind.bind, Except.bind] at h
  | ok x => exact ⟨x, rfl, by simpa [Bind.bind, Except.bind] using h⟩

theorem mem_sinsert {x y : String} {s : List String} : x ∈ sinsert y s ↔ x = y ∨ x ∈ s := by
  unfold sinsert
  split
  case isTrue h =>
    simp at h
    constructor
    · exact Or.inr
    · rintro (rfl | hx)
      · exact h
      · exact hx
  case isFalse h =>
    simp [List.mem_append]
    tauto

theorem nodup_sinsert {y : String} {s : List String} (h : s.Nodup) : (sinsert y s).Nodup := by
  unfold sinsert
  split
  case isTrue hc => exact h
  case isFalse hc =>
    simp at hc
    refine List.Nodup.append h (List.nodup_singleton y) ?_
    intro a ha hy
    simp at hy
    exact hc (hy ▸ ha)

theorem mem_sunion {x : String} : ∀ {b a : List String}, x ∈ sunion a b ↔ x ∈ a ∨ x ∈ b := by
  intro b
  induction b with
  | nil => intro a; simp [sunion]
  | cons y t ih =>
    intro a
    have hstep : sunion a (y :: t) = sunion (sinsert y a) t := rfl
    rw [hstep, ih, mem_sinsert]
    simp
    tauto

theorem nodup_sunion : ∀ {b a : List String}, a.Nodup → (sunion a b).Nodup := by
  intro b
  induction b with
  | nil => intro a h; exact h
  | cons y t ih =>
    intro a h
    have hstep : sunion a (y :: t) = sunion (sinsert y a) t := rfl
    rw [hstep]
    exact ih (nodup_sinsert h)

theorem mem_ssub {x : String} {a b : List String} : x ∈ ssub a b ↔ x ∈ a ∧ x ∉ b := by
  simp [ssub, List.mem_filter]

theorem mem_sinter {x : String} {a b : List String} : x ∈ sinter a b ↔ x ∈ a ∧ x ∈ b := by
  simp [sinter, List.mem_filter]

theorem mem_skeys {x : String} {d : Dict} : x ∈ skeys d ↔ x ∈ d.map (·.1) := by
  unfold skeys
  rw [mem_sunion]
  simp

theorem nodup_skeys {d : Dict} : (skeys d).Nodup :=
  nodup_sunion List.nodup_nil

theorem mem_addStrings {x : String} :
    ∀ {l : List JVal} {s : List String}, x ∈ addStrings l s ↔ JVal.str x ∈ l ∨ x ∈ s := by
  intro l
  induction l with
  | nil => intro s; simp [addStrings]
  | cons v t ih =>
    intro s
    have hstep : addStrings (v :: t) s
        = addStrings t (match v with | .str u => sinsert u s | _ => s) := rfl
    rw [hstep]
    cases v with
    | str u =>
      rw [ih, mem_sinsert]
      simp
      tauto
    | int n => rw [ih]; simp
    | float m e => rw [ih]; simp
    | bool b => rw [ih]; simp
    | null => rw [ih]; simp
    | arr l2 => rw [ih]; simp
    | obj kvs => rw [ih]; simp

theorem mapE_ok_length {α β : Type} {f : α → Except PyErr β} :
    ∀ {l : List α} {ys : List β}, mapE f l = .ok ys → ys.length = l.length := by
  intro l
  induction l with
  | nil =>
    intro ys h
    simp [mapE, pure, Except.pure] at h
    simp [← h]
  | cons x t ih =>
    intro ys h
    unfold mapE at h
    obtain ⟨y, hy, h⟩ := except_bind_ok h
    obtain ⟨ys', hys, h⟩ := except_bind_ok h
    simp [pure, Except.pure] at h
    rw [← h]
    simp [ih hys]

theorem mapE_ok_mem {α β : Type} {f : α → Except PyErr β} :
    ∀ {l : List α} {ys : List β}, mapE f l = .ok ys → ∀ y ∈ ys, ∃ x ∈ l, f x = .ok y := by
  intro l
  induction l with
  | nil =>
    intro ys h
    simp [mapE, pure, Except.pure] at h
    subst h
    simp
  | cons x t ih =>
    intro ys h
    unfold mapE at h
    obtain ⟨y, hy, h⟩ := except_bind_ok h
    obtain ⟨ys', hys, h⟩ := except_bind_ok h
    simp [pure, Except.pure] at h
    rw [← h]
    intro z hz
    rcases List.mem_cons.mp hz with hz | hz
    · exact ⟨x, List.mem_cons_self x t, hz ▸ hy⟩
    · obtain ⟨w, hw, hfw⟩ := ih hys z hz
      exact ⟨w, List.mem_cons_of_mem x hw, hfw⟩

theorem rowFor_pool {vrec mrec df : Dict} {p e : String} {r : Row}
    (h : rowFor vrec mrec df p e = .ok r) : r.pool = p := by
  unfold rowFor at h
  obtain ⟨o, ho, h⟩ := except_bind_ok h
  obtain ⟨a1, h1, h⟩ := except_bind_ok h
  obtain ⟨a2, h2, h⟩ := except_bind_ok h
  obtain ⟨a3, h3, h⟩ := except_bind_ok h
  obtain ⟨a4, h4, h⟩ := except_bind_ok h
  obtain ⟨a5, h5, h⟩ := except_bind_ok h
  simp [pure, Except.pure] at h
  rw [← h]

theorem str_mk_append (a b : List Char) : String.mk a ++ String.mk b = String.mk (a ++ b) := rfl

theorem readlines_join : ∀ (cs acc p : List Char),
    List.foldl (fun s l => s ++ l) (String.mk p) (readlinesAux cs acc)
      = String.mk (p ++ acc.reverse ++ cs) := by
  intro cs
  induction cs with
  | nil =>
    intro acc p
    cases acc with
    | nil => simp [readlinesAux]
    | cons a as =>
      simp only [readlinesAux, List.foldl_cons, List.foldl_nil, str_mk_append]
      simp
  | cons c cs ih =>
    intro acc p
    simp only [readlinesAux]
    split
    case isTrue hc =>
      subst hc
      simp only [List.foldl_cons, str_mk_append]
      rw [ih]
      congr 1
      simp
    case isFalse hc =>
      rw [ih]
      congr 1
      simp

theorem foldl_rmStep_noTrigger :
    ∀ (lines : List String) (s0 : String),
      (∀ l ∈ lines, mlTrigger l = false) →
      lines.foldl rmStep (s0, false) = (lines.foldl (fun s l => s ++ l) s0, false) := by
  intro lines
  induction lines with
  | nil => intro s0 _; rfl
  | cons l t ih =>
    intro s0 h
    have hl : mlTrigger l = false := h l (List.mem_cons_self l t)
    simp only [List.foldl_cons]
    rw [show rmStep (s0, false) l = (s0 ++ l, false) from by simp [rmStep, hl]]
    exact ih (s0 ++ l) (fun x hx => h x (List.mem_cons_of_mem l hx))

theorem remove_multilines_id {x : String} (h : ∀ l ∈ pyReadlines x, mlTrigger l = false) :
    remove_multilines x = x := by
  unfold remove_multilines
  rw [foldl_rmStep_noTrigger _ _ h]
  show List.foldl (fun s l => s ++ l) "" (pyReadlines x) = x
  unfold pyReadlines
  exact readlines_join x.toList [] []

theorem gefp_single (p : String) (body : JVal) :
    getEnemiesFromPool (.obj [(p, body)]) p = gefpSpec body := by
  unfold getEnemiesFromPool
  simp [pyInKey, hasKey, dictGet, pySubscript, pyDictKey, Bind.bind, Except.bind]

theorem gefpSpec_add_lc (l : List JVal) :
    gefpSpec (.obj [("add", .arr l)]) = .ok (addStrings l [], []) := by
  unfold gefpSpec
  simp [pyLowerKeys, lowerStrs, pyElems, pyGetD, getDJ, dictGet, Bind.bind, Except.bind, pure,
    Except.pure, show pyLower "add" = "add" from rfl, addStrings]

theorem gefpSpec_add_cap (l : List JVal) :
    gefpSpec (.obj [("Add", .arr l)]) = .ok (addStrings l [], []) := by
  unfold gefpSpec
  simp [pyLowerKeys, lowerStrs, pyElems, pyGetD, getDJ, dictGet, Bind.bind, Except.bind, pure,
    Except.pure, show pyLower "Add" = "add" from rfl, addStrings]

theorem gefpSpec_add_uc (l : List JVal) :
    gefpSpec (.obj [("ADD", .arr l)]) = .ok (addStrings l [], []) := by
  unfold gefpSpec
  simp [pyLowerKeys, lowerStrs, pyElems, pyGetD, getDJ, dictGet, Bind.bind, Except.bind, pure,
    Except.pure, show pyLower "ADD" = "add" from rfl, addStrings]

theorem gefpSpec_remove_lc (l : List JVal) :
    gefpSpec (.obj [("remove", .arr l)]) = .ok ([], addStrings l []) := by
  unfold gefpSpec
  simp [pyLowerKeys, lowerStrs, pyElems, pyGetD, getDJ, dictGet, Bind.bind, Except.bind, pure,
    Except.pure, show pyLower "remove" = "remove" from rfl, addStrings]

theorem gefpSpec_remove_cap (l : List JVal) :
    gefpSpec (.obj [("Remove", .arr l)]) = .ok ([], addStrings l []) := by
  unfold gefpSpec
  simp [pyLowerKeys, lowerStrs, pyElems, pyGetD, getDJ, dictGet, Bind.bind, Except.bind, pure,
    Except.pure, show pyLower "Remove" = "remove" from rfl, addStrings]

theorem gefpSpec_remove_uc (l : List JVal) :
    gefpSpec (.obj [("REMOVE", .arr l)]) = .ok ([], addStrings l []) := by
  unfold gefpSpec
  simp [pyLowerKeys, lowerStrs, pyElems, pyGetD, getDJ, dictGet, Bind.bind, Except.bind, pure,
    Except.pure, show pyLower "REMOVE" = "remove" from rfl, addStrings]

theorem gefpSpec_odd_spelling (k : String) (l : List JVal)
    (h1 : k ≠ "add") (h2 : k ≠ "Add") (h3 : k ≠ "ADD")
    (h4 : k ≠ "remove") (h5 : k ≠ "Remove") (h6 : k ≠ "REMOVE") :
    gefpSpec (.obj [(k, .arr l)]) = .ok ([], []) := by
  unfold gefpSpec
  simp [pyLowerKeys, lowerStrs, pyElems, pyGetD, getDJ, dictGet, Bind.bind, Except.bind, pure,
    Except.pure, addStrings, beq_iff_eq, h1, h2, h3, h4, h5, h6]

theorem gefpSpec_add_str (t : String) :
    gefpSpec (.obj [("add", .str t)])
      = .ok (addStrings (t.toList.map (fun c => JVal.str (String.mk [c]))) [], []) := by
  unfold gefpSpec
  simp [pyLowerKeys, lowerStrs, pyElems, pyGetD, getDJ, dictGet, Bind.bind, Except.bind, pure,
    Except.pure, show pyLower "add" = "add" from rfl, addStrings]

theorem gefpSpec_remove_str (t : String) :
    gefpSpec (.obj [("remove", .str t)])
      = .ok ([], addStrings (t.toList.map (fun c => JVal.str (String.mk [c]))) []) := by
  unfold gefpSpec
  simp [pyLowerKeys, lowerStrs, pyElems, pyGetD, getDJ, dictGet, Bind.bind, Except.bind, pure,
    Except.pure, show pyLower "remove" = "remove" from rfl, addStrings]

/-! ## Claim theorems -/

/-- C1: the claim fails on the code — `build_enemy_pools` evaluates
`common_pool | enemies_to_add - enemies_to_remove`, which Python parses as
`common_pool | (add - remove)`, so a removal is subtracted only from that
pass's additions.  At a document whose only mutation removes the fixed
baseline member `ED_Spider_Grunt`, the extracted remove set does name that
descriptor, yet the resolved general pool is the untouched vanilla baseline
and still contains it. -/
theorem c1_remove_never_deletes_baseline :
    build_enemy_pools dfC1 = .ok ⟨VANILLA_COMMON_POOL, VANILLA_STATIONARY_POOL, []⟩ ∧
    "ED_Spider_Grunt" ∈ VANILLA_COMMON_POOL ∧
    getEnemiesFromPool (.obj [("EnemyPool", .obj [("remove", .arr [.str "ED_Spider_Grunt"])])])
        "EnemyPool"
      = .ok ([], ["ED_Spider_Grunt"]) :=
  ⟨rfl, by decide, rfl⟩

/-- C5 counterexample: the add-key lookup is not case-insensitive — the key
`aDd` lowercases to `add` (so the claim requires its entries to be added), yet
`get_enemies_from_pool` probes only the spellings `add`/`Add`/`ADD` and
extracts nothing. -/
theorem c5_fourth_spelling_ignored :
    pyLower "aDd" = "add" ∧
    getEnemiesFromPool poolsC5 "EnemyPool" = .ok ([], []) ∧
    "ED_New" ∉ ((getEnemiesFromPool poolsC5 "EnemyPool").toOption.getD ([], [])).1 :=
  ⟨rfl, rfl, by decide⟩

/-- C5 (amended): add/remove extraction recognizes exactly the spellings
`add`/`Add`/`ADD` and `remove`/`Remove`/`REMOVE` (gated on some key of the
mutation spec lowercasing to `add`/`remove`); any other casing contributes
nothing even when its lowercase spelling is `add`, and a list entry that is
not a string is ignored (only string entries become members). -/
theorem c5_add_remove_key_extraction :
    (∀ p k l, k ≠ "add" → k ≠ "Add" → k ≠ "ADD" → k ≠ "remove" → k ≠ "Remove" → k ≠ "REMOVE" →
      getEnemiesFromPool (.obj [(p, .obj [(k, .arr l)])]) p = .ok ([], [])) ∧
    (∀ p l, getEnemiesFromPool (.obj [(p, .obj [("add", .arr l)])]) p = .ok (addStrings l [], []) ∧
      getEnemiesFromPool (.obj [(p, .obj [("Add", .arr l)])]) p = .ok (addStrings l [], []) ∧
      getEnemiesFromPool (.obj [(p, .obj [("ADD", .arr l)])]) p = .ok (addStrings l [], [])) ∧
    (∀ p l, getEnemiesFromPool (.obj [(p, .obj [("remove", .arr l)])]) p = .ok ([], addStrings l []) ∧
      getEnemiesFromPool (.obj [(p, .obj [("Remove", .arr l)])]) p = .ok ([], addStrings l []) ∧
      getEnemiesFromPool (.obj [(p, .obj [("REMOVE", .arr l)])]) p = .ok ([], addStrings l [])) ∧
    (∀ l x, x ∈ addStrings l [] ↔ JVal.str x ∈ l) := by
  refine ⟨?_, ?_, ?_, ?_⟩
  · intro p k l h1 h2 h3 h4 h5 h6
    exact (gefp_single p _).trans (gefpSpec_odd_spelling k l h1 h2 h3 h4 h5 h6)
  · intro p l
    exact ⟨(gefp_single p _).trans (gefpSpec_add_lc l),
      (gefp_single p _).trans (gefpSpec_add_cap l),
      (gefp_single p _).trans (gefpSpec_add_uc l)⟩
  · intro p l
    exact ⟨(gefp_single p _).trans (gefpSpec_remove_lc l),
      (gefp_single p _).trans (gefpSpec_remove_cap l),
      (gefp_single p _).trans (gefpSpec_remove_uc l)⟩
  · intro l x
    rw [mem_addStrings]
    simp

/-- C5 witness: the amended extraction at concrete inputs — an `oDd`-style
casing (`aDd`) yields nothing, the spelling `Add` yields its string entries
with the non-string entry `5` ignored. -/
theorem c5_add_remove_key_extraction_witness :
    getEnemiesFromPool (.obj [("EnemyPool", .obj [("aDd", .arr [.str "ED_New"])])]) "EnemyPool"
      = .ok ([], []) ∧
    getEnemiesFromPool (.obj [("EnemyPool", .obj [("Add", .arr [.str "ED_A", .int 5, .str "ED_B"])])])
        "EnemyPool"
      = .ok (["ED_A", "ED_B"], []) ∧
    (("ED_A" : String) ∈ addStrings [JVal.str "ED_A", JVal.int 5, JVal.str "ED_B"] [] ↔
      JVal.str "ED_A" ∈ [JVal.str "ED_A", JVal.int 5, JVal.str "ED_B"]) := by
  refine ⟨?_, ?_, ?_⟩
  · exact c5_add_remove_key_extraction.1 "EnemyPool" "aDd" [.str "ED_New"]
      (by decide) (by decide) (by decide) (by decide) (by decide) (by decide)
  · exact (c5_add_remove_key_extraction.2.1 "EnemyPool" [.str "ED_A", .int 5, .str "ED_B"]).2.1
  · exact c5_add_remove_key_extraction.2.2.2 [JVal.str "ED_A", JVal.int 5, JVal.str "ED_B"] "ED_A"

/-- C6 counterexample: the Lenient Document Reader is not idempotent.  On a
text whose broken `"Description` line is followed by a terminating line that
does not end in `",`, the first pass glues the two lines into one line that
again matches the trigger pattern, so a second pass changes the text again. -/
theorem c6_reader_not_idempotent :
    remove_multilines (remove_multilines xC6) ≠ remove_multilines xC6 := by decide

/-- C6 (amended): on any input text none of whose lines matches the
multi-line trigger pattern, the Lenient Document Reader copies every line
through unchanged — it returns the text itself — and is therefore idempotent
on such texts.  (Full idempotence fails: see the counterexample.) -/
theorem c6_reader_id_on_trigger_free (x : String)
    (h : ∀ l ∈ pyReadlines x, mlTrigger l = false) :
    remove_multilines x = x ∧
    remove_multilines (remove_multilines x) = remove_multilines x := by
  have h1 := remove_multilines_id h
  exact ⟨h1, by rw [h1, h1]⟩

/-- C6 witness: the identity/idempotence theorem applied to a concrete
trigger-free text. -/
theorem c6_reader_id_witness :
    remove_multilines xC6ok = xC6ok ∧
    remove_multilines (remove_multilines xC6ok) = remove_multilines xC6ok :=
  c6_reader_id_on_trigger_free xC6ok (by decide)

/-- C10: when a pool-mutation spec's add or remove key maps to a single
string, the classifier iterates it character by character — each
one-character substring passes the `isinstance(str)` check and becomes a
descriptor to add (resp. to remove), every character of the string is a
member of the extracted set, and (for strings of length ≥ 2) the whole
string is not itself a member. -/
theorem c10_string_add_iterates_chars (p t : String) :
    getEnemiesFromPool (.obj [(p, .obj [("add", .str t)])]) p
      = .ok (addStrings (t.toList.map (fun c => JVal.str (String.mk [c]))) [], []) ∧
    getEnemiesFromPool (.obj [(p, .obj [("remove", .str t)])]) p
      = .ok ([], addStrings (t.toList.map (fun c => JVal.str (String.mk [c]))) []) ∧
    (∀ c ∈ t.toList, String.mk [c] ∈ addStrings (t.toList.map (fun c => JVal.str (String.mk [c]))) []) ∧
    (2 ≤ t.length → t ∉ addStrings (t.toList.map (fun c => JVal.str (String.mk [c]))) []) := by
  refine ⟨(gefp_single p _).trans (gefpSpec_add_str t),
    (gefp_single p _).trans (gefpSpec_remove_str t), ?_, ?_⟩
  · intro c hc
    rw [mem_addStrings]
    exact Or.inl (List.mem_map.mpr ⟨c, hc, rfl⟩)
  · intro hlen hmem
    rw [mem_addStrings] at hmem
    rcases hmem with hm | hm
    · obtain ⟨c, _, hc⟩ := List.mem_map.mp hm
      have ht : t = String.mk [c] := by
        have := congrArg (fun v => match v with | JVal.str u => u | _ => "") hc
        simpa using this.symm
      rw [ht] at hlen
      simp [String.length] at hlen
    · simp at hm

/-- C10 witness: the character-iteration theorem at the concrete string
`"AB"` — the add key contributes the descriptors `A` and `B` as additions,
the remove key contributes them as removals, and `AB` itself is in neither
extracted set. -/
theorem c10_string_add_witness :
    getEnemiesFromPool (.obj [("EnemyPool", .obj [("add", .str "AB")])]) "EnemyPool"
      = .ok (["A", "B"], []) ∧
    getEnemiesFromPool (.obj [("EnemyPool", .obj [("remove", .str "AB")])]) "EnemyPool"
      = .ok ([], ["A", "B"]) ∧
    "AB" ∉ (["A", "B"] : List String) := by
  have h := c10_string_add_iterates_chars "EnemyPool" "AB"
  exact ⟨h.1, h.2.1, by decide⟩

/-- C3: whenever `build_enemy_pools` succeeds, its unknown pool is exactly
the set of descriptors of the document's enemy-override key set (`Enemies` if
present, else `EnemiesNoSync`, else empty) that are members of neither the
resolved general pool nor the resolved stationary pool — in particular only
descriptors with an explicit override record can be unknown. -/
theorem c3_unknown_pool_spec (df : Dict) (P : PoolsOut) (ks : List String)
    (hp : build_enemy_pools df = .ok P)
    (hk : pyKeysSet (diffEnemiesVal df) = .ok ks) :
    ∀ e, e ∈ P.unknownPool ↔ e ∈ ks ∧ e ∉ P.enemyPool ∧ e ∉ P.stationaryPool := by
  unfold build_enemy_pools at hp
  obtain ⟨dp, hdp, hp⟩ := except_bind_ok hp
  obtain ⟨c, hc, hp⟩ := except_bind_ok hp
  obtain ⟨st, hst, hp⟩ := except_bind_ok hp
  obtain ⟨ks2, hks2, hp⟩ := except_bind_ok hp
  rw [hk] at hks2
  injection hks2 with hks2
  subst hks2
  simp only [pure, Except.pure, Except.ok.injEq] at hp
  subst hp
  intro e
  simp only []
  rw [mem_sinter, mem_ssub, mem_ssub]
  tauto

/-- C3 witness: the unknown-pool characterisation at a concrete document —
`ED_Foo` has an override record and is in neither resolved pool (so it is
unknown), while `ED_Spider_Grunt` is a general-pool member (so it is not). -/
theorem c3_unknown_pool_witness :
    ("ED_Foo" ∈ poolsW.unknownPool ↔
      "ED_Foo" ∈ ["ED_Foo"] ∧ "ED_Foo" ∉ poolsW.enemyPool ∧ "ED_Foo" ∉ poolsW.stationaryPool) ∧
    ("ED_Spider_Grunt" ∈ poolsW.unknownPool ↔
      "ED_Spider_Grunt" ∈ ["ED_Foo"] ∧ "ED_Spider_Grunt" ∉ poolsW.enemyPool ∧
        "ED_Spider_Grunt" ∉ poolsW.stationaryPool) :=
  ⟨c3_unknown_pool_spec dfW poolsW ["ED_Foo"] rfl rfl "ED_Foo",
   c3_unknown_pool_spec dfW poolsW ["ED_Foo"] rfl rfl "ED_Spider_Grunt"⟩

/-- C9: a parsed difficulty document without a top-level `Pools` member makes
pool classification fail with a `KeyError` (the bare subscript
`diff["Pools"]`), which propagates through `build_enemy_record`, so the run
aborts with no report — unlike `Name` (which defaults to `"Unknown"`) and the
enemy-override sections (which default to empty). -/
theorem c9_pools_required (vrec mrec df : Dict) (h : dictGet df "Pools" = none) :
    build_enemy_pools df = .error .keyError ∧
    build_enemy_record vrec mrec df = .error .keyError ∧
    (dictGet df "Name" = none → docName df = "Unknown") ∧
    (hasKey df "Enemies" = false → hasKey df "EnemiesNoSync" = false →
      diffEnemiesVal df = .obj []) := by
  have h1 : build_enemy_pools df = .error .keyError := by
    unfold build_enemy_pools pyDictKey
    rw [h]
    rfl
  refine ⟨h1, ?_, ?_, ?_⟩
  · unfold build_enemy_record
    rw [h1]
    rfl
  · intro hn
    unfold docName
    rw [hn]
  · intro h4 h5
    unfold diffEnemiesVal
    rw [h4, h5]
    rfl

/-- C9 witness: a concrete document with enemy overrides but no `Pools`
member aborts, and the `Name`/override-section defaults at concrete
documents. -/
theorem c9_pools_required_witness :
    build_enemy_pools dfC9 = .error .keyError ∧
    build_enemy_record [] [] dfC9 = .error .keyError ∧
    docName dfC9 = "Unknown" ∧
    diffEnemiesVal [] = .obj [] := by
  have hA := c9_pools_required [] [] dfC9 (by rfl)
  have hB := c9_pools_required [] [] [] (by rfl)
  exact ⟨hA.1, hA.2.1, hA.2.2.1 (by rfl), hB.2.2.2 (by rfl) (by rfl)⟩

theorem truthyMatch_some {p : JVal} (ht : truthy p = true) : truthyMatch (some p) = some p := by
  simp [truthyMatch, ht]

/-- C2 counterexample: the override lookups test truthiness, not presence.
With `Enemies.ED_X.Rarity = 0` the key is present in the highest-priority
source, yet resolution falls through to the vanilla baseline, and changing
only that lower-priority source changes the resolved value. -/
theorem c2_falsy_override_falls_through :
    chainGet dfC2 "Enemies" "ED_X" "Rarity" = .ok (some (.int 0)) ∧
    search_for_control vanC2 [] dfC2 "ED_X" "Rarity" (.str "N/A") = .ok (.str "5 (*)") ∧
    search_for_control vanC2' [] dfC2 "ED_X" "Rarity" (.str "N/A") = .ok (.str "7 (*)") ∧
    search_for_control vanC2 [] dfC2 "ED_X" "Rarity" (.str "N/A")
      ≠ search_for_control vanC2' [] dfC2 "ED_X" "Rarity" (.str "N/A") := by
  refine ⟨rfl, rfl, rfl, ?_⟩
  intro hcon
  exact absurd (JVal.str.inj (Except.ok.inj hcon)) (by decide)

/-- C2 (amended): attribute resolution queries `Enemies`, then
`EnemiesNoSync`, then the vanilla baseline (marked `" (*)"`), then the mod
baseline (marked), then the default — where a source wins exactly when it
holds a TRUTHY value (a falsy value such as `0` or `False` is passed over);
when a source wins, changing only lower-priority sources cannot change the
resolved value; and with every source silent the report rows fall back to the
literal defaults `"N/A"` (`Rarity`, `DifficultyRating`,
`SpawnAmountModifier`) and `"False"` (the two boolean-flavoured
attributes). -/
theorem c2_resolution_priority (vrec vrec' mrec mrec' df : Dict) (enemy control : String)
    (dflt : JVal) :
    (∀ p, chainGet df "Enemies" enemy control = .ok (some p) → truthy p = true →
      search_for_control vrec mrec df enemy control dflt
          = .ok (if p.isObj then .str "Mutated" else p) ∧
      search_for_control vrec mrec df enemy control dflt
          = search_for_control vrec' mrec' df enemy control dflt) ∧
    (∀ o p, chainGet df "Enemies" enemy control = .ok o → truthyMatch o = none →
      chainGet df "EnemiesNoSync" enemy control = .ok (some p) → truthy p = true →
      search_for_control vrec mrec df enemy control dflt
          = .ok (if p.isObj then .str "Mutated" else p) ∧
      search_for_control vrec mrec df enemy control dflt
          = search_for_control vrec' mrec' df enemy control dflt) ∧
    (∀ o1 o2 p, chainGet df "Enemies" enemy control = .ok o1 → truthyMatch o1 = none →
      chainGet df "EnemiesNoSync" enemy control = .ok o2 → truthyMatch o2 = none →
      baseGet vrec enemy control = .ok (some p) → truthy p = true →
      search_for_control vrec mrec df enemy control dflt = .ok (.str (pyStr p ++ " (*)")) ∧
      search_for_control vrec mrec df enemy control dflt
          = search_for_control vrec mrec' df enemy control dflt) ∧
    (∀ o1 o2 o3 p, chainGet df "Enemies" enemy control = .ok o1 → truthyMatch o1 = none →
      chainGet df "EnemiesNoSync" enemy control = .ok o2 → truthyMatch o2 = none →
      baseGet vrec enemy control = .ok o3 → truthyMatch o3 = none →
      baseGet mrec enemy control = .ok (some p) → truthy p = true →
      search_for_control vrec mrec df enemy control dflt = .ok (.str (pyStr p ++ " (*)"))) ∧
    (∀ o1 o2 o3 o4, chainGet df "Enemies" enemy control = .ok o1 → truthyMatch o1 = none →
      chainGet df "EnemiesNoSync" enemy control = .ok o2 → truthyMatch o2 = none →
      baseGet vrec enemy control = .ok o3 → truthyMatch o3 = none →
      baseGet mrec enemy control = .ok o4 → truthyMatch o4 = none →
      search_for_control vrec mrec df enemy control dflt = .ok dflt) ∧
    (∀ p e, rowFor [] [] [] p e
      = .ok ⟨e, "unknown", .str "N/A", .str "N/A", .str "N/A", .str "False", .str "False", p⟩) := by
  refine ⟨?_, ?_, ?_, ?_, ?_, ?_⟩
  · intro p h ht
    have key : ∀ v m : Dict, search_for_control v m df enemy control dflt
        = .ok (if p.isObj then .str "Mutated" else p) := by
      intro v m
      unfold search_for_control
      rw [h]
      simp [Bind.bind, Except.bind, truthyMatch_some ht, pure, Except.pure]
    exact ⟨key vrec mrec, (key vrec mrec).trans (key vrec' mrec').symm⟩
  · intro o p h1 hm1 h2 ht
    have key : ∀ v m : Dict, search_for_control v m df enemy control dflt
        = .ok (if p.isObj then .str "Mutated" else p) := by
      intro v m
      unfold search_for_control
      rw [h1]
      simp [Bind.bind, Except.bind, hm1, h2, truthyMatch_some ht, pure, Except.pure]
    exact ⟨key vrec mrec, (key vrec mrec).trans (key vrec' mrec').symm⟩
  · intro o1 o2 p h1 hm1 h2 hm2 h3 ht
    have key : ∀ m : Dict, search_for_control vrec m df enemy control dflt
        = .ok (.str (pyStr p ++ " (*)")) := by
      intro m
      unfold search_for_control
      rw [h1]
      simp [Bind.bind, Except.bind, hm1, h2, hm2, h3, truthyMatch_some ht, pure, Except.pure]
    exact ⟨key mrec, (key mrec).trans (key mrec').symm⟩
  · intro o1 o2 o3 p h1 hm1 h2 hm2 h3 hm3 h4 ht
    unfold search_for_control
    rw [h1]
    simp [Bind.bind, Except.bind, hm1, h2, hm2, h3, hm3, h4, truthyMatch_some ht, pure, Except.pure]
  · intro o1 o2 o3 o4 h1 hm1 h2 hm2 h3 hm3 h4 hm4
    unfold search_for_control
    rw [h1]
    simp [Bind.bind, Except.bind, hm1, h2, hm2, h3, hm3, h4, hm4, pure, Except.pure]
  · intro p e
    rfl

/-- C2 witness: the amended priority at concrete inputs — with the falsy
override `Rarity = 0`, the truthy vanilla baseline `5` wins (marked), the
resolution is invariant under a mod-baseline change, and an enemy absent from
every source resolves to the documented defaults in its report row. -/
theorem c2_resolution_priority_witness :
    search_for_control vanC2 [] dfC2 "ED_X" "Rarity" (.str "N/A") = .ok (.str "5 (*)") ∧
    search_for_control vanC2 [] dfC2 "ED_X" "Rarity" (.str "N/A")
      = search_for_control vanC2 [("ED_X", .obj [("Rarity", .int 9)])] dfC2 "ED_X" "Rarity"
          (.str "N/A") ∧
    rowFor [] [] [] "unknown" "ED_Q"
      = .ok ⟨"ED_Q", "unknown", .str "N/A", .str "N/A", .str "N/A", .str "False", .str "False",
          "unknown"⟩ := by
  have h := c2_resolution_priority vanC2 vanC2' [] [("ED_X", .obj [("Rarity", .int 9)])] dfC2
    "ED_X" "Rarity" (.str "N/A")
  obtain ⟨ha, hb⟩ := h.2.2.1 (some (.int 0)) none (.int 5) rfl rfl rfl rfl rfl rfl
  exact ⟨ha, hb, h.2.2.2.2.2 "unknown" "ED_Q"⟩

/-- C4: a truthy value matched in the `Enemies` or `EnemiesNoSync` override
section that is a mapping (nested structure) resolves to exactly the literal
string `"Mutated"` — never an error and never the structure itself —
whichever of the two sections supplied it. -/
theorem c4_nested_value_renders_mutated (vrec mrec df : Dict) (enemy control : String)
    (dflt : JVal) :
    (∀ p, chainGet df "Enemies" enemy control = .ok (some p) → truthy p = true →
      p.isObj = true →
      search_for_control vrec mrec df enemy control dflt = .ok (.str "Mutated")) ∧
    (∀ o p, chainGet df "Enemies" enemy control = .ok o → truthyMatch o = none →
      chainGet df "EnemiesNoSync" enemy control = .ok (some p) → truthy p = true →
      p.isObj = true →
      search_for_control vrec mrec df enemy control dflt = .ok (.str "Mutated")) := by
  constructor
  · intro p h ht hobj
    unfold search_for_control
    rw [h]
    simp [Bind.bind, Except.bind, truthyMatch_some ht, hobj, pure, Except.pure]
  · intro o p h1 hm1 h2 ht hobj
    unfold search_for_control
    rw [h1]
    simp [Bind.bind, Except.bind, hm1, h2, truthyMatch_some ht, hobj, pure, Except.pure]

/-- C4 witness: nested overrides at a concrete document — one supplied by
`Enemies`, one supplied by `EnemiesNoSync` after `Enemies` is silent — both
render as `"Mutated"`. -/
theorem c4_nested_value_witness :
    search_for_control [] [] dfC4 "ED_Y" "SpawnAmountModifier" (.str "N/A")
      = .ok (.str "Mutated") ∧
    search_for_control [] [] dfC4 "ED_Y" "Rarity" (.str "N/A") = .ok (.str "Mutated") :=
  ⟨(c4_nested_value_renders_mutated [] [] dfC4 "ED_Y" "SpawnAmountModifier" (.str "N/A")).1
      (.obj [("min", .int 1)]) rfl rfl rfl,
   (c4_nested_value_renders_mutated [] [] dfC4 "ED_Y" "Rarity" (.str "N/A")).2
      none (.obj [("mul", .int 2)]) rfl rfl rfl rfl rfl⟩

/-- C7 counterexample: the probe is `endswith("(*)")`, with no leading space.
The cell value `"3.5\t(*)"` does not end in `" (*)"`, so the claim demands
the sentinel `-1`, yet the code parses its first token and yields `3.5`. -/
theorem c7_endswith_probe_lacks_space :
    pyEnds "3.5\t(*)" " (*)" = false ∧
    custom_sorter (.str "3.5\t(*)") "Rarity" = .ok (.float 35 1) ∧
    (Except.ok (JVal.float 35 1) : Except PyErr JVal) ≠ .ok (.int (-1)) := by
  refine ⟨rfl, rfl, ?_⟩
  intro h
  exact JVal.noConfusion (Except.ok.inj h)

/-- C7 (amended): for the three numeric-kind sort fields, a string cell is
keyed by `float` of its first whitespace token when it ends with `"(*)"` (no
leading space in the probe; a `ValueError` when the token does not parse), by
the int `-1` for any other string, a list cell by its first element
(`IndexError` when empty), and any other cell passes through unchanged. -/
theorem c7_numeric_sort_key (sortBy : String)
    (hs : sortBy = "Rarity" ∨ sortBy = "SpawnAmountModifier" ∨ sortBy = "DifficultyRating") :
    (∀ t, pyEnds t "(*)" = false → custom_sorter (.str t) sortBy = .ok (.int (-1))) ∧
    (∀ t tok rest v, pyEnds t "(*)" = true → pySplitWS t = tok :: rest → pyFloat tok = some v →
      custom_sorter (.str t) sortBy = .ok v) ∧
    (∀ t tok rest, pyEnds t "(*)" = true → pySplitWS t = tok :: rest → pyFloat tok = none →
      custom_sorter (.str t) sortBy = .error .valueError) ∧
    (∀ x l, custom_sorter (.arr (x :: l)) sortBy = .ok x) ∧
    (custom_sorter (.arr []) sortBy = .error .indexError) ∧
    (∀ n, custom_sorter (.int n) sortBy = .ok (.int n)) ∧
    (∀ m e, custom_sorter (.float m e) sortBy = .ok (.float m e)) := by
  rcases hs with rfl | rfl | rfl <;>
    refine ⟨?_, ?_, ?_, fun x l => rfl, rfl, fun n => rfl, fun m e => rfl⟩ <;>
    first
    | (intro t hends
       simp only [custom_sorter, Bind.bind, Except.bind]
       simp [fieldKind, sorterFields, hends, pure, Except.pure])
    | (intro t tok rest v hends hsplit hfl
       simp only [custom_sorter, Bind.bind, Except.bind]
       simp [fieldKind, sorterFields, hends, hsplit, hfl, pure, Except.pure])
    | (intro t tok rest hends hsplit hfl
       simp only [custom_sorter, Bind.bind, Except.bind]
       simp [fieldKind, sorterFields, hends, hsplit, hfl, pure, Except.pure])

/-- C7 witness: the amended sort-key normalization at concrete cells —
`"3.5 (*)"` keys to `3.5`, the strings `"Mutated"` and `"N/A"` key to `-1`,
and a raw int cell passes through. -/
theorem c7_numeric_sort_key_witness :
    custom_sorter (.str "3.5 (*)") "Rarity" = .ok (.float 35 1) ∧
    custom_sorter (.str "Mutated") "Rarity" = .ok (.int (-1)) ∧
    custom_sorter (.str "N/A") "DifficultyRating" = .ok (.int (-1)) ∧
    custom_sorter (.int 4) "SpawnAmountModifier" = .ok (.int 4) := by
  have hR := c7_numeric_sort_key "Rarity" (Or.inl rfl)
  have hD := c7_numeric_sort_key "DifficultyRating" (Or.inr (Or.inr rfl))
  have hS := c7_numeric_sort_key "SpawnAmountModifier" (Or.inr (Or.inl rfl))
  exact ⟨hR.2.1 "3.5 (*)" "3.5" ["(*)"] (.float 35 1) rfl rfl rfl,
    hR.1 "Mutated" rfl, hD.1 "N/A" rfl, hS.2.2.2.2.2.1 4⟩

/-- C8: with the unknown-pool filter flag set, the filtered record contains
no row with pool `unknown`, keeps every row with any other pool name, and the
total row count drops by exactly the cardinality of the resolved unknown
pool. -/
theorem c8_filter_unknown (vrec mrec df : Dict) (P : PoolsOut) (record : List Row)
    (hp : build_enemy_pools df = .ok P)
    (hr : build_enemy_record vrec mrec df = .ok record) :
    (∀ r ∈ filterRecord record true, r.pool ≠ "unknown") ∧
    (∀ r ∈ record, r.pool ≠ "unknown" → r ∈ filterRecord record true) ∧
    record.length = (filterRecord record true).length + P.unknownPool.length := by
  unfold build_enemy_record at hr
  obtain ⟨P', hP', hr⟩ := except_bind_ok hr
  rw [hp] at hP'
  injection hP' with hP'
  subst hP'
  obtain ⟨r1, h1, hr⟩ := except_bind_ok hr
  obtain ⟨r2, h2, hr⟩ := except_bind_ok hr
  obtain ⟨r3, h3, hr⟩ := except_bind_ok hr
  simp only [pure, Except.pure, Except.ok.injEq] at hr
  subst hr
  have hp1 : ∀ r ∈ r1, r.pool = "enemy_pool" := fun r hm => by
    obtain ⟨x, _, hfx⟩ := mapE_ok_mem h1 r hm
    exact rowFor_pool hfx
  have hp2 : ∀ r ∈ r2, r.pool = "stationary_pool" := fun r hm => by
    obtain ⟨x, _, hfx⟩ := mapE_ok_mem h2 r hm
    exact rowFor_pool hfx
  have hp3 : ∀ r ∈ r3, r.pool = "unknown" := fun r hm => by
    obtain ⟨x, _, hfx⟩ := mapE_ok_mem h3 r hm
    exact rowFor_pool hfx
  have hfilter : filterRecord (r1 ++ r2 ++ r3) true
      = (r1 ++ r2 ++ r3).filter (fun r => r.pool != "unknown") := rfl
  refine ⟨?_, ?_, ?_⟩
  · intro r hm
    rw [hfilter] at hm
    simpa using (List.mem_filter.mp hm).2
  · intro r hm hne
    rw [hfilter]
    exact List.mem_filter.mpr ⟨hm, by simpa using hne⟩
  · have hf12 : (r1 ++ r2).filter (fun r => r.pool != "unknown") = r1 ++ r2 := by
      rw [List.filter_eq_self]
      intro a ha
      rcases List.mem_append.mp ha with ha | ha
      · simp [hp1 a ha]
      · simp [hp2 a ha]
    have hf3 : r3.filter (fun r => r.pool != "unknown") = [] := by
      rw [List.filter_eq_nil_iff]
      intro a ha
      simp [hp3 a ha]
    have hlen3 : r3.length = P.unknownPool.length := mapE_ok_length h3
    rw [hfilter, List.filter_append, hf12, hf3]
    simp [← hlen3]
    omega

/-- C8 witness: the filter theorem at a concrete document — the record has 25
rows (18 general + 6 stationary + 1 unknown), filtering drops exactly the one
unknown row, and the first kept row (spot-checked) is not tagged unknown. -/
theorem c8_filter_unknown_witness :
    recW.length = (filterRecord recW true).length + poolsW.unknownPool.length ∧
    recW.length = 25 ∧
    (filterRecord recW true).length = 24 ∧
    (⟨"ED_Spider_Grunt", "ED_Spider_Grunt / Vanilla", .str "10 (*)", .str "N/A", .str "N/A",
        .str "False", .str "False", "enemy_pool"⟩ : Row).pool ≠ "unknown" := by
  have h := c8_filter_unknown vanW [] dfW poolsW recW rfl rfl
  refine ⟨h.2.2, rfl, rfl, ?_⟩
  exact h.1 _ (List.mem_cons_self _ _)
